import Mathlib

/-!
Verification development for the ADGM-Agent repository.

Shallow embedding of the document classifier (`app/parser.py`), the
compliance rule engine (`app/rules.py` with its collaborators in
`app/rag.py` and `app/models/llm_client.py`), the checklist reconciler
(`app/checklist.py`) and the text extractor (`app/parser.py`,
`extract_document_content`).

Texts are Lean `String`s (lists of characters).  The Python `regex`
searches (always invoked with `re.I`) are embedded by a small
backtracking matcher over a first-order regex AST that covers exactly
the constructs appearing in the repository's patterns: literal
characters, `\s`, `\d`, `.`, the class `[_\s]`, concatenation,
alternation, greedy `*` / `+` / `?` / `{3,}` and the word boundary
`\b`.  Alternation prefers the left branch and repetition is greedy,
matching Python's backtracking order; `findall` counting scans
positions left to right and resumes after each (leftmost, preferred)
match, exactly as `re.findall` does for the repository's patterns
(none of which can match the empty string, though the zero-width case
is still handled the way Python handles it).  External effects (the
chroma retrieval store, the Gemini API, and the interpreter state
behind `list(set(...))`) are injected explicitly as an environment of
functions.
-/

namespace ADGM

/-- Character predicate for Python's `\s` (ASCII whitespace). -/
def isSpaceC (c : Char) : Bool :=
  c == ' ' || c == '\t' || c == '\n' || c == '\r' || c == '\x0b' || c == '\x0c'

/-- ASCII lower-casing, used to embed the `re.I` flag. -/
def lowerChar (c : Char) : Char :=
  if 'A' ≤ c && c ≤ 'Z' then Char.ofNat (c.toNat + 32) else c

/-- Character predicate for Python's `\w` (ASCII scope), used by `\b`. -/
def isWordC (c : Char) : Bool :=
  ('a' ≤ lowerChar c && lowerChar c ≤ 'z') || ('0' ≤ c && c ≤ '9') || c == '_'

/-- Character classes occurring in the repository's regexes. -/
inductive CC where
  | lit (c : Char)
  | space
  | digit
  | dot
  | uspace
deriving DecidableEq, Repr

/-- Does character `ch` match the class (case-insensitively, as all the
repository's searches pass `re.I`)? -/
def classMatch : CC → Char → Bool
  | .lit d, ch => lowerChar ch == lowerChar d
  | .space, ch => isSpaceC ch
  | .digit, ch => '0' ≤ ch && ch ≤ '9'
  | .dot, ch => !(ch == '\n')
  | .uspace, ch => ch == '_' || isSpaceC ch

/-- Regex AST covering the constructs used by the repository. -/
inductive Re where
  | eps
  | cls (c : CC)
  | seq (a b : Re)
  | alt (a b : Re)
  | star (a : Re)
  | wb
deriving DecidableEq, Repr

/-- Is the character (if any) a word character?  `none` stands for the
text boundary. -/
def wordOpt : Option Char → Bool
  | none => false
  | some c => isWordC c

/-- Match states: the previously consumed character (context for `\b`)
and the remaining input. -/
abbrev MState := Option Char × List Char

/-- Greedy iteration for `star`: all end states of repeating `ends1`,
preferring more repetitions, with `fuel` bounding the number of
unfoldings (every starred body in the repository consumes at least one
character, so `fuel = |input| + 1` reproduces Python exactly). -/
def starEnds (ends1 : Option Char → List Char → List MState) :
    Nat → Option Char → List Char → List MState
  | 0, prev, s => [(prev, s)]
  | fuel + 1, prev, s =>
      ((ends1 prev s).flatMap fun st => starEnds ends1 fuel st.1 st.2) ++ [(prev, s)]

/-- All end states of matching `r` at the current position, in Python's
backtracking preference order (left alternative first, greedy
repetition). -/
def matchEnds : Re → Option Char → List Char → List MState
  | .eps, prev, s => [(prev, s)]
  | .cls cc, _, [] => (fun _ => []) cc
  | .cls cc, _, ch :: rest => if classMatch cc ch then [(some ch, rest)] else []
  | .wb, prev, s => if wordOpt prev != wordOpt s.head? then [(prev, s)] else []
  | .seq a b, prev, s => (matchEnds a prev s).flatMap fun st => matchEnds b st.1 st.2
  | .alt a b, prev, s => matchEnds a prev s ++ matchEnds b prev s
  | .star a, prev, s => starEnds (matchEnds a) (s.length + 1) prev s

/-- Does `r` match somewhere at or after the current position
(`re.search`)? -/
def searchAux (r : Re) : Option Char → List Char → Bool
  | prev, [] => !(matchEnds r prev []).isEmpty
  | prev, c :: rest =>
      !(matchEnds r prev (c :: rest)).isEmpty || searchAux r (some c) rest

/-- Embedding of `re.search(r, s, re.I) is not None`. -/
def searchB (r : Re) (s : String) : Bool := searchAux r none s.data

/-- Counting scan of `re.findall`: at each position take the preferred
match and resume after it (advancing one character after a zero-width
match, as Python does); `fuel` bounds the number of scan steps. -/
def countAux (r : Re) : Nat → Option Char → List Char → Nat
  | 0, _, _ => 0
  | fuel + 1, prev, s =>
      match (matchEnds r prev s).head? with
      | some st =>
          if st.2.length < s.length then 1 + countAux r fuel st.1 st.2
          else
            match s with
            | [] => 1
            | c :: rest => 1 + countAux r fuel (some c) rest
      | none =>
          match s with
          | [] => 0
          | c :: rest => countAux r fuel (some c) rest

/-- Embedding of `len(re.findall(r, s, flags=re.I))`. -/
def countMatches (r : Re) (s : String) : Nat :=
  countAux r (s.data.length + 1) none s.data

/-- Does `r` match the whole of `s` (an isolated occurrence of the
pattern)? -/
def fullMatchB (r : Re) (s : String) : Bool :=
  (matchEnds r none s.data).any fun st => st.2.isEmpty

/-- Literal character (matched case-insensitively). -/
def rchar (c : Char) : Re := .cls (.lit c)

/-- Concatenation of a list of regexes. -/
def rcat : List Re → Re
  | [] => .eps
  | [r] => r
  | r :: rest => .seq r (rcat rest)

/-- Alternation of a list of regexes (left preference). -/
def rors : List Re → Re
  | [] => .eps
  | [r] => r
  | r :: rest => .alt r (rors rest)

/-- Literal string, each character case-insensitive. -/
def rstr (s : String) : Re := rcat (s.data.map rchar)

/-- Greedy `r+`. -/
def rplus (r : Re) : Re := .seq r (.star r)

/-- Greedy `r?`. -/
def ropt (r : Re) : Re := .alt r .eps

/-- Python `\s+`. -/
def rws : Re := rplus (.cls .space)

/-- Python `\s*`. -/
def rwso : Re := .star (.cls .space)

/-- Python `\d+`. -/
def rdigits : Re := rplus (.cls .digit)

/-- Words separated by `\s+`, as in the taxonomy patterns. -/
def rwords : List String → Re
  | [] => .eps
  | [w] => rstr w
  | w :: rest => .seq (rstr w) (.seq rws (rwords rest))

/-- Wrap a regex in `\b ... \b`. -/
def rb (r : Re) : Re := .seq .wb (.seq r .wb)

/-- Embedding of `TYPE_RULES` from `app/parser.py` (the Requirement
Taxonomy's recognition rules), in declaration order. -/
def TYPE_RULES : List (String × List Re) := [
  ("Articles of Association", [
    rb (rwords ["Articles", "of", "Association"]),
    rb (rcat [rchar 'A', rwso, rchar 'O', rwso, rchar 'A']),
    rcat [rstr "Article", rws, rdigits],
    rwords ["company", "constitution"],
    rwords ["articles", "and", "regulations"],
    rwords ["corporate", "articles"]]),
  ("Memorandum of Association", [
    rb (rwords ["Memorandum", "of", "Association"]),
    rb (rcat [rchar 'M', rwso, rchar 'O', rwso, rchar 'A']),
    rwords ["objects", "of", "the", "company"],
    rwords ["company", "objects"],
    rwords ["memorandum", "and", "articles"]]),
  ("Board Resolution", [
    rb (rwords ["Board", "Resolution"]),
    rb (rcat [rstr "Resolution", rws, rstr "of", rws, ropt (.seq (rstr "the") rws),
              rstr "Board"]),
    rcat [rstr "Director", ropt (rchar 's'), rws, rstr "Resolution"],
    rwords ["Board", "of", "Directors", "Resolution"],
    rwords ["resolved", "that"],
    rwords ["IT", "IS", "RESOLVED"],
    rwords ["board", "meeting"],
    rcat [rstr "director", ropt (rchar 's'), rws, rstr "meeting"]]),
  ("Shareholder Resolution", [
    rb (rwords ["Shareholder", "Resolution"]),
    rb (rwords ["Member", "Resolution"]),
    rcat [rstr "Resolution", rws, rstr "of", rws, ropt (.seq (rstr "the") rws),
          rstr "Shareholder", ropt (rchar 's')],
    rcat [rstr "Resolution", rws, rstr "of", rws, ropt (.seq (rstr "the") rws),
          rstr "Member", ropt (rchar 's')],
    rcat [rstr "shareholder", ropt (rchar 's'), rws, rstr "meeting"],
    rcat [rstr "member", ropt (rchar 's'), rws, rstr "meeting"],
    rwords ["general", "meeting"]]),
  ("Employment Contract", [
    rb (rwords ["Employment", "Contract"]),
    rb (rwords ["Contract", "of", "Employment"]),
    rb (rwords ["Employment", "Agreement"]),
    rwords ["terms", "and", "conditions", "of", "employment"],
    rwords ["employee", "handbook"],
    rwords ["job", "description"],
    rwords ["salary", "and", "benefits"],
    rwords ["working", "hours"],
    rwords ["probation", "period"],
    rwords ["termination", "clause"]]),
  ("UBO Declaration", [
    rb (rwords ["UBO", "Declaration"]),
    rb (rwords ["Ultimate", "Beneficial", "Owner"]),
    rwords ["beneficial", "ownership"],
    rwords ["UBO", "information"],
    rwords ["ownership", "structure"],
    rwords ["controlling", "interest"]]),
  ("Register of Members and Directors", [
    rb (rwords ["Register", "of", "Members"]),
    rb (rwords ["Register", "of", "Directors"]),
    rcat [rstr "Member", ropt (rchar 's'), rws, rstr "Register"],
    rcat [rstr "Director", ropt (rchar 's'), rws, rstr "Register"],
    rwords ["shareholding", "details"],
    rwords ["director", "details"],
    rwords ["member", "information"]]),
  ("Incorporation Application Form", [
    rb (rwords ["Incorporation", "Application"]),
    rwords ["Application", "for", "Incorporation"],
    rwords ["company", "registration"],
    rwords ["incorporation", "form"],
    rwords ["registration", "application"]]),
  ("Change of Registered Address Notice", [
    rcat [rstr "Change", rws, rstr "of", rws, ropt (.seq (rstr "Registered") rws),
          rstr "Address"],
    rwords ["Address", "Change", "Notice"],
    rwords ["registered", "office", "change"],
    rwords ["change", "of", "registered", "office"]]),
  ("Licensing Regulatory Filing", [
    rcat [rstr "Licensing", rws, ropt (.seq (rstr "Regulatory") rws), rstr "Filing"],
    rwords ["License", "Application"],
    rwords ["regulatory", "filing"],
    rwords ["license", "renewal"],
    rwords ["permit", "application"]]),
  ("Commercial Agreement", [
    rb (rwords ["Commercial", "Agreement"]),
    rb (rwords ["Service", "Agreement"]),
    rwords ["business", "agreement"],
    rwords ["commercial", "contract"],
    rwords ["service", "contract"],
    rwords ["supply", "agreement"]]),
  ("Compliance Risk Policy", [
    rb (rwords ["Compliance", "Policy"]),
    rb (rwords ["Risk", "Policy"]),
    rwords ["compliance", "procedures"],
    rwords ["risk", "management"],
    rwords ["internal", "controls"]]),
  ("Renewal Application Form", [
    rwords ["Renewal", "Application"],
    rwords ["License", "Renewal"],
    rwords ["permit", "renewal"],
    rwords ["registration", "renewal"]]),
  ("Compliance Declaration", [
    rwords ["Compliance", "Declaration"],
    rwords ["regulatory", "compliance"],
    rwords ["compliance", "statement"],
    rwords ["declaration", "of", "compliance"]])]

/-- Score of a pattern list against a text: the summed match counts
(the loop body of `detect_doc_type`, `app/parser.py` 162-183; both
branches of the `isinstance` test there run the same `re.findall`). -/
def scoreOf (pats : List Re) (text : String) : Nat :=
  (pats.map fun r => countMatches r text).sum

/-- Scores of every taxonomy entry, in declaration order. -/
def allScores (text : String) : List (String × Nat) :=
  TYPE_RULES.map fun tp => (tp.1, scoreOf tp.2 text)

/-- The `type_scores` dict of `detect_doc_type`: only strictly positive
scores are recorded, in declaration order (Python dicts preserve
insertion order). -/
def type_scores (text : String) : List (String × Nat) :=
  (allScores text).filter fun p => 0 < p.2

/-- Python's `max(items, key=score)`: the first item attaining the
maximum (later items replace the current best only on a strictly
greater key). -/
def pyMaxBy : List (String × Nat) → Option (String × Nat)
  | [] => none
  | x :: xs => some (xs.foldl (fun best y => if best.2 < y.2 then y else best) x)

/-- Text that `str.strip()` reduces to the empty string. -/
def isBlankText (s : String) : Bool := s.data.all isSpaceC

/-- Embedding of `detect_doc_type` (`app/parser.py` 151-233) as a
function of the already-extracted combined text.  The generative
fallback (lines 193-233: the Gemini call plus its substring
post-processing and its catch-all exception handler) is abstracted as
the injected function `fb`; it is consulted exactly when no pattern
scores positively. -/
def detect_doc_type (fb : String → String) (combined_text : String) : String :=
  if isBlankText combined_text then "Unknown"
  else
    match pyMaxBy (type_scores combined_text) with
    | some best => best.1
    | none => fb combined_text

/-- Maximum of the recorded scores (0 for the empty list). -/
def maxOf : List (String × Nat) → Nat
  | [] => 0
  | p :: l => max p.2 (maxOf l)

/-- Maximum taxonomy score of a text. -/
def maxScoreOf (text : String) : Nat := maxOf (allScores text)

/-- Modelled from the spec's words for the classification contract
(§4.1): the first DocumentType, in taxonomy declaration order, whose
summed case-insensitive occurrence count attains the maximum score.
Compared against `detect_doc_type` in the claims below. -/
def specClassify (text : String) : Option String :=
  ((allScores text).find? fun p => p.2 == maxScoreOf text).map fun p => p.1

/-- A text whose content consists only of occurrences of patterns drawn
from `pats`: a single isolated occurrence, or a concatenation of
such texts (the reading of claim C1). -/
inductive MadeOf (pats : List Re) : List Char → Prop
  | single (r : Re) (s : String) : r ∈ pats → fullMatchB r s = true → MadeOf pats s.data
  | append (s t : List Char) : MadeOf pats s → MadeOf pats t → MadeOf pats (s ++ t)

/-- Does `s` start with `pre` (character lists)? -/
def listLeads : List Char → List Char → Bool
  | [], _ => true
  | _ :: _, [] => false
  | a :: as, b :: bs => a == b && listLeads as bs

/-- Python `s.startswith(pre)`. -/
def leadsWith (pre s : String) : Bool := listLeads pre.data s.data

/-- Scan for an occurrence of `needle` at any position. -/
def subAux (needle : List Char) : List Char → Bool
  | [] => listLeads needle []
  | c :: rest => listLeads needle (c :: rest) || subAux needle rest

/-- Python `needle in hay` on strings. -/
def containsSub (needle hay : String) : Bool := subAux needle.data hay.data

/-- Python `s.lower()` (ASCII scope). -/
def lowerStr (s : String) : String := ⟨s.data.map lowerChar⟩

/-- Python `s[:n]` (code points). -/
def takeStr (n : Nat) (s : String) : String := ⟨s.data.take n⟩

/-- Remove leading and trailing whitespace from a character list. -/
def trimChars (l : List Char) : List Char :=
  (((l.dropWhile isSpaceC).reverse.dropWhile isSpaceC)).reverse

/-- Python `s.strip()` (ASCII whitespace scope). -/
def stripStr (s : String) : String := ⟨trimChars s.data⟩

/-- Python `sep.join(l)`. -/
def joinSep (sep : String) : List String → String
  | [] => ""
  | [s] => s
  | s :: rest => s ++ sep ++ joinSep sep rest

/-- Python `"\n".join(l)`. -/
def joinNL : List String → String := joinSep "\n"

/-- Environment of external effects consumed by the engine:
`retrieve` models `retrieve_relevant_passages` (`app/rag.py` 12-28,
whose internal `except` path is a provider returning `[]`); `genParts`
models one `generate_content` round trip of `GeminiClient.ask`
(`app/models/llm_client.py` 30-52): `none` is a raised exception or an
empty candidate list, `some parts` the collected candidate part texts;
`setEnum` models the interpreter's `list(set(...))` enumeration used
in `get_rag_enhanced_suggestion` (`app/rag.py` 68), whose order
depends on the process's string-hash seed; `ragAvailable` models
`check_rag_database_status` (`app/rag.py` 73-102). -/
structure Env where
  retrieve : String → Nat → List String
  genParts : String → Option (List String)
  setEnum : List String → List String
  ragAvailable : Bool

/-- A valid `list(set(l))` enumeration: the distinct elements of `l` in
some order. -/
def IsSetEnum (l out : List String) : Prop :=
  out.Nodup ∧ ∀ x, x ∈ out ↔ x ∈ l

/-- Embedding of `GeminiClient.ask` (`app/models/llm_client.py`
30-52): the collected candidate parts are joined with spaces and
stripped; a raised exception or no usable parts yields the placeholder
`"[No suggestion available]"`. -/
def ask (env : Env) (prompt context : String) : String :=
  match env.genParts (prompt ++ "\n\nContext:\n" ++
      (if context == "" then "No additional context." else context)) with
  | none => "[No suggestion available]"
  | some parts =>
      let collected := parts.filter fun t => t != ""
      if collected.isEmpty then "[No suggestion available]"
      else stripStr (joinSep " " collected)

/-- Embedding of `retrieve_relevant_passages` (`app/rag.py` 12-28). -/
def retrieve_relevant_passages (env : Env) (query_text : String) (top_k : Nat) :
    List String :=
  env.retrieve query_text top_k

/-- Embedding of `retrieve_for_compliance_check` (`app/rag.py` 37-42). -/
def retrieve_for_compliance_check (env : Env) (doc_type section_content : String)
    (top_k : Nat) : List String :=
  retrieve_relevant_passages env
    (doc_type ++ " compliance requirements " ++ takeStr 150 section_content) top_k

/-- Embedding of `get_rag_enhanced_suggestion` (`app/rag.py` 51-71);
the `section_content` parameter is unused there as well. -/
def get_rag_enhanced_suggestion (env : Env)
    (issue_description doc_type _section_content : String) : String :=
  let queries := [doc_type ++ " " ++ issue_description,
                  "ADGM compliance " ++ issue_description,
                  doc_type ++ " requirements standard clauses"]
  let all_context := queries.flatMap fun q => retrieve_relevant_passages env q 5
  let unique_context := env.setEnum all_context
  joinNL (unique_context.take 15)

/-- Embedding of `get_document_requirements` (`app/rag.py` 104-114). -/
def get_document_requirements (env : Env) (doc_type : String) : String :=
  let requirements := retrieve_relevant_passages env
    (doc_type ++ " mandatory requirements essential clauses ADGM") 8
  if requirements.isEmpty then
    "No specific requirements found in knowledge base for " ++ doc_type
  else joinNL (requirements.take 5)

/-- The `gemini.ask` response inside `get_rag_powered_suggestion`
(`app/rules.py` 14-36). -/
def composerResponse (env : Env) (prompt doc_type context : String) : String :=
  let rag_context := get_rag_enhanced_suggestion env prompt doc_type context
  let full_context :=
    if context != "" then rag_context ++ "\n\n" ++ context else rag_context
  ask env ("Based on ADGM legal requirements, provide a 1-2 sentence suggestion. " ++
    "Include specific legal references if available.\n\n" ++ prompt) full_context

/-- Embedding of `get_rag_powered_suggestion` (`app/rules.py` 14-39).
Its `except` branch is unreachable here: every callee catches its own
failures (the generative one by returning the placeholder). -/
def get_rag_powered_suggestion (env : Env) (prompt doc_type context : String) :
    String :=
  let response := composerResponse env prompt doc_type context
  if response == "" || leadsWith "[No suggestion" response
      || leadsWith "[No response" response then
    "Review " ++ doc_type ++ " against ADGM requirements: " ++ stripStr prompt
  else stripStr response

/-- Issue records produced by `red_flags` (`section` is a Lean keyword,
hence the field name `issueSection`). -/
structure Issue where
  issueSection : String
  issue : String
  severity : String
  suggestion : String
  citations : List String
  document_type : String
deriving DecidableEq, Repr

/-- The `requirement_patterns` dict of
`check_document_against_rag_requirements` (`app/rules.py` 54-63), in
insertion order. -/
def requirement_patterns : List (String × Re) := [
  ("signature", rors [rcat [rstr "sign", .alt (rstr "ed") (rstr "ature")],
                      rstr "execution", rstr "witnessed"]),
  ("date", rors [rstr "date", rwords ["effective", "date"], rstr "commencement"]),
  ("parties", rors [rstr "parties", rwords ["contracting", "parties"]]),
  ("jurisdiction", rors [rstr "jurisdiction", rwords ["governing", "law"],
                         rstr "ADGM"]),
  ("address", rors [rstr "address", rwords ["registered", "office"]]),
  ("termination", rors [rstr "termination", rstr "expiry", rstr "end"]),
  ("liability", rors [rstr "liability", rstr "indemnity", rstr "damages"]),
  ("confidentiality", rors [rstr "confidential",
                            rcat [rstr "non", ropt (.cls .dot), rstr "disclosure"]])]

/-- Embedding of `check_document_against_rag_requirements`
(`app/rules.py` 41-69). -/
def check_document_against_rag_requirements (env : Env)
    (doc_type full_text : String) : List String :=
  let requirements_text := get_document_requirements env doc_type
  if containsSub "No specific requirements" requirements_text then []
  else
    requirement_patterns.filterMap fun rp =>
      if containsSub rp.1 (lowerStr requirements_text) && !(searchB rp.2 full_text)
      then some rp.1 else none

/-- One issue of the retrieval-sourced requirement-gap family
(`app/rules.py` 101-112). -/
def ragIssue (env : Env) (doc_type req : String) : Issue :=
  { issueSection := "General",
    issue := "Missing requirement identified by legal knowledge: " ++ req,
    severity := "Medium",
    suggestion := get_rag_powered_suggestion env ("Document missing: " ++ req)
      doc_type (joinNL (retrieve_for_compliance_check env doc_type
        ("missing " ++ req) 5)),
    citations := ["ADGM Legal Knowledge Base"],
    document_type := doc_type }

/-- The requirement-gap check family (`app/rules.py` 98-112): runs only
when the retrieval store is available. -/
def ragReqFamily (env : Env) (doc_type full_text : String) : List Issue :=
  if env.ragAvailable then
    (check_document_against_rag_requirements env doc_type full_text).map
      (ragIssue env doc_type)
  else []

/-- The `corporate_docs` list (`app/rules.py` 115). -/
def corporate_docs : List String :=
  ["Articles of Association", "Memorandum of Association", "Board Resolution",
   "Shareholder Resolution"]

/-- Regex `\bADGM\b` (`app/rules.py` 118). -/
def reADGM : Re := rb (rstr "ADGM")

/-- Regex `UAE Federal Court|onshore UAE|Dubai Courts|UAE Federal Law`
(`app/rules.py` 119; the spaces there are literal). -/
def reUAEFed : Re :=
  rors [rstr "UAE Federal Court", rstr "onshore UAE", rstr "Dubai Courts",
        rstr "UAE Federal Law"]

/-- Regex `jurisdiction|law|court|governed` locating the paragraph named
in the jurisdiction issue (`app/rules.py` 122). -/
def reJurisLoc : Re :=
  rors [rstr "jurisdiction", rstr "law", rstr "court", rstr "governed"]

/-- Index of the first paragraph matching the jurisdiction keywords,
defaulting to 0 (`app/rules.py` 122). -/
def jIdx (texts : List String) : Nat :=
  (texts.findIdx? fun p => searchB reJurisLoc p).getD 0

/-- The jurisdiction issue (`app/rules.py` 124-139). -/
def jurisdictionIssue (env : Env) (doc_type : String) (texts : List String) :
    Issue :=
  let idx := jIdx texts
  let ctx :=
    if env.ragAvailable then
      joinNL (retrieve_for_compliance_check env doc_type "jurisdiction ADGM law" 5)
    else "ADGM jurisdiction required for corporate documents"
  let prompt := "Jurisdiction issue in " ++ doc_type ++ ". Text: " ++
    texts.getD idx "Not found"
  { issueSection := "Paragraph " ++ toString (idx + 1),
    issue := "Jurisdiction not specific to ADGM or references UAE Federal law",
    severity := "High",
    suggestion := get_rag_powered_suggestion env prompt doc_type ctx,
    citations := ["Companies Regulations 2020 s.6â€“12"],
    document_type := doc_type }

/-- The jurisdiction failure condition (`app/rules.py` 118-121):
`has_uae_federal or not has_adgm`. -/
def jcond (full_text : String) : Bool :=
  searchB reUAEFed full_text || !(searchB reADGM full_text)

/-- The jurisdiction check family (`app/rules.py` 114-139). -/
def jurisdictionFamily (env : Env) (doc_type : String) (texts : List String)
    (full_text : String) : List Issue :=
  if corporate_docs.contains doc_type then
    if jcond full_text then [jurisdictionIssue env doc_type texts] else []
  else []

/-- The `required_fields` of the UBO check (`app/rules.py` 143-149). -/
def ubo_required_fields : List (String × Re) := [
  ("full name", rcat [ropt (.seq (rstr "full") rws), rstr "name"]),
  ("date of birth", rors [rcat [ropt (rcat [rstr "date", rws, rstr "of", rws]),
                                rstr "birth"], rstr "DOB", rstr "born"]),
  ("nationality", rors [rstr "nationality", rstr "citizen"]),
  ("passport", rors [rstr "passport", rcat [rstr "ID", rws, rstr "number"]]),
  ("address", rors [rstr "address", rstr "residence"])]

/-- One UBO issue (`app/rules.py` 151-167). -/
def uboIssue (env : Env) (doc_type field : String) : Issue :=
  let ctx :=
    if env.ragAvailable then
      joinNL (retrieve_for_compliance_check env doc_type
        ("UBO " ++ field ++ " requirements") 3)
    else "UBO declarations must include " ++ field
  { issueSection := "General",
    issue := "Missing UBO field: " ++ field,
    severity := "High",
    suggestion := get_rag_powered_suggestion env
      ("UBO declaration missing: " ++ field ++ ".") doc_type ctx,
    citations := ["Beneficial Ownership & Control Regulations 2022"],
    document_type := doc_type }

/-- The UBO declaration check family (`app/rules.py` 141-167). -/
def uboFamily (env : Env) (doc_type full_text : String) : List Issue :=
  if doc_type == "UBO Declaration" then
    ubo_required_fields.filterMap fun fp =>
      if searchB fp.2 full_text then none else some (uboIssue env doc_type fp.1)
  else []

/-- The `employment_requirements` list (`app/rules.py` 171-178). -/
def employment_requirements : List (String × Re) := [
  ("job title/position", rcat [ropt (.seq (rstr "job") rws),
                               rors [rstr "title", rstr "position", rstr "role"]]),
  ("salary/compensation", rors [rstr "salary", rstr "wage", rstr "compensation",
                                rstr "remuneration", rstr "pay"]),
  ("working hours", rors [rwords ["working", "hours"], rwords ["work", "schedule"],
                          rwords ["hours", "of", "work"]]),
  ("probation period", rors [rstr "probation", rwords ["trial", "period"]]),
  ("termination clause", rors [rstr "termination", rstr "dismiss",
                               rwords ["notice", "period"]]),
  ("leave entitlement", rors [rstr "leave", rstr "holiday", rstr "vacation",
                              rwords ["sick", "leave"], rwords ["annual", "leave"]])]

/-- One employment-contract issue (`app/rules.py` 180-196). -/
def empIssue (env : Env) (doc_type req : String) : Issue :=
  let ctx :=
    if env.ragAvailable then
      joinNL (retrieve_for_compliance_check env doc_type
        ("employment " ++ req ++ " ADGM requirements") 4)
    else "Employment contracts must specify " ++ req
  { issueSection := "General",
    issue := "Missing " ++ req,
    severity := "Medium",
    suggestion := get_rag_powered_suggestion env
      ("Employment contract missing: " ++ req ++ ".") doc_type ctx,
    citations := ["Employment Regulations 2019"],
    document_type := doc_type }

/-- The employment-contract check family (`app/rules.py` 169-196). -/
def empFamily (env : Env) (doc_type full_text : String) : List Issue :=
  if doc_type == "Employment Contract" then
    employment_requirements.filterMap fun rp =>
      if searchB rp.2 full_text then none else some (empIssue env doc_type rp.1)
  else []

/-- The `signature_patterns` list (`app/rules.py` 199-201). -/
def signature_patterns : List Re := [
  rcat [rstr "sign", .alt (rstr "ed") (rstr "ature")],
  rcat [rstr "date", ropt (rchar ':'), rwso, .cls .uspace, .cls .uspace,
        .cls .uspace, .star (.cls .uspace)],
  rwords ["executed", "on"],
  rstr "witness"]

/-- The universal signature issue (`app/rules.py` 209-223). -/
def sigIssue (env : Env) (doc_type : String) : Issue :=
  let ctx :=
    if env.ragAvailable then
      joinNL (retrieve_for_compliance_check env doc_type
        "signature execution requirements" 3)
    else "Documents must be properly executed with signatures"
  { issueSection := "End of Document",
    issue := "Missing signature block or execution clause",
    severity := if ["Employment Contract", "Commercial Agreement"].contains doc_type
                then "Medium" else "Low",
    suggestion := get_rag_powered_suggestion env "Missing signature block"
      doc_type ctx,
    citations := ["Companies Regulations 2020"],
    document_type := doc_type }

/-- The universal signature/execution check family
(`app/rules.py` 198-223). -/
def signatureFamily (env : Env) (doc_type : String) (texts : List String) :
    List Issue :=
  if texts.any (fun t => signature_patterns.any fun r => searchB r t) then []
  else [sigIssue env doc_type]

/-- The synthetic issue of the empty-document early return
(`app/rules.py` 86-94). -/
def emptyIssue (doc_type : String) : Issue :=
  { issueSection := "General",
    issue := "Document appears to be empty or unreadable",
    severity := "High",
    suggestion := "Please check the document format and content.",
    citations := [],
    document_type := doc_type }

/-- The synthetic issue of the catch-all `except` branch
(`app/rules.py` 228-237). -/
def errorIssue (e doc_type : String) : Issue :=
  { issueSection := "General",
    issue := "Error analyzing document: " ++ takeStr 100 e,
    severity := "High",
    suggestion := "Please check document format and try again.",
    citations := [],
    document_type := doc_type }

/-- The non-blank paragraph texts kept by `red_flags`
(`app/rules.py` 83: `[p.text for p in doc.paragraphs if p.text.strip()]`,
which filters on the stripped text but keeps the original). -/
def paraTexts (paras : List String) : List String :=
  paras.filter fun p => !(isBlankText p)

/-- Embedding of `red_flags` (`app/rules.py` 71-237).  The document
argument models the outcome of `Document(doc_path)`: `.error e` is a
raised parse failure (handled by the catch-all `except`), `.ok paras`
the list of paragraph texts.  Only paragraph text is scanned — table
content never reaches this function.  The issue families are appended
in source order. -/
def red_flags (env : Env) (doc : Except String (List String))
    (doc_type : String) : List Issue :=
  match doc with
  | .error e => [errorIssue e doc_type]
  | .ok paras =>
      let texts := paraTexts paras
      if texts.isEmpty then [emptyIssue doc_type]
      else
        let full_text := joinNL texts
        ragReqFamily env doc_type full_text
          ++ jurisdictionFamily env doc_type texts full_text
          ++ uboFamily env doc_type full_text
          ++ empFamily env doc_type full_text
          ++ signatureFamily env doc_type texts

/-- Embedding of `ADGM_CHECKLIST` (`app/checklist.py` 1-14). -/
def ADGM_CHECKLIST : List (String × List String) := [
  ("Company Incorporation",
   ["Articles of Association", "Memorandum of Association",
    "Incorporation Application Form", "UBO Declaration", "Board Resolution",
    "Register of Members and Directors", "Shareholder Resolution",
    "Change of Registered Address Notice"]),
  ("Licensing Regulatory Filings",
   ["Licensing Regulatory Filing", "Renewal Application Form",
    "Compliance Declaration"]),
  ("Employment HR Contracts", ["Employment Contract"]),
  ("Commercial Agreements", ["Commercial Agreement"]),
  ("Compliance Risk Policies", ["Compliance Risk Policy"])]

/-- Python dict lookup on the (duplicate-free) checklist map. -/
def lookupProcess : List (String × List String) → String → Option (List String)
  | [], _ => none
  | kv :: rest, k => if kv.1 == k then some kv.2 else lookupProcess rest k

/-- Embedding of `verify_checklist` (`app/checklist.py` 16-34).
Membership in `missing` is as in the source (`required - found`);
Python materialises that set in unspecified order, so `missing` is
represented here in `required` order — every claim about it is
order-insensitive.  `problematic` reproduces the source loop exactly:
first-seen order over `issues`, deduplicated. -/
def verify_checklist (found_types : List String) (process : String)
    (issues : List Issue) : List String × List String :=
  match lookupProcess ADGM_CHECKLIST process with
  | none => ([], [])
  | some required =>
      let missing := required.filter fun t => !(found_types.contains t)
      let problematic := issues.foldl
        (fun acc i =>
          if required.contains i.document_type
              && found_types.contains i.document_type
              && !(acc.contains i.document_type)
          then acc ++ [i.document_type] else acc) []
      (missing, problematic)

/-- First-seen-order deduplication, the spec's description of
`problematic`'s order (§4.5) and a canonical `list(set(...))`
enumeration.  (Written structurally — remove later duplicates of the
head from the deduplicated tail — so that it evaluates by kernel
reduction; `dedupFirstSeen_cons_filter` below recovers the usual
recursion.) -/
def dedupFirstSeen : List String → List String
  | [] => []
  | x :: xs => x :: (dedupFirstSeen xs).filter fun y => y != x

/-- Embedding of `extract_document_content` (`app/parser.py` 119-149)
as a function of the paragraph texts and the table cell texts
(tables → rows → cells).  The combined text interleaves stripped
paragraphs and flattened table rows, newline-joined. -/
def extract_document_content (paras : List String)
    (tables : List (List (List String))) : String × List String × List String :=
  let paragraph_text := paras.filterMap fun p =>
    if stripStr p != "" then some (stripStr p) else none
  let table_text := (tables.map fun tb =>
    tb.filterMap fun row =>
      let row_text := row.filterMap fun c =>
        if stripStr c != "" then some (stripStr c) else none
      if row_text.isEmpty then none else some (joinSep " | " row_text)).flatten
  (joinNL (paragraph_text ++ table_text), paragraph_text, table_text)

/-- Character classes that can only match non-whitespace characters. -/
def inky : CC → Bool
  | .lit c => !(isSpaceC (lowerChar c))
  | .digit => true
  | .space => false
  | .dot => false
  | .uspace => false

/-- Syntactic check that every successful match of the regex consumes at
least one non-whitespace character (used to show that blank text has
score 0). -/
def needsInk : Re → Bool
  | .eps => false
  | .cls c => inky c
  | .seq a b => needsInk a || needsInk b
  | .alt a b => needsInk a && needsInk b
  | .star _ => false
  | .wb => false

/-- All-whitespace character list. -/
def allSpace (l : List Char) : Bool := l.all isSpaceC

/-- Documents on which `red_flags` short-circuits: a raised parse
failure, or no non-blank paragraph. -/
def docDeadOnArrival : Except String (List String) → Prop
  | .error _ => True
  | .ok paras => paraTexts paras = []

/-- The single synthetic issue returned for such documents
(`app/rules.py` 86-94 and 228-237). -/
def syntheticIssue : Except String (List String) → String → Issue
  | .error e, doc_type => errorIssue e doc_type
  | .ok _, doc_type => emptyIssue doc_type

/-- Recognizer for the jurisdiction issue among emitted issues. -/
def isJurisdictionIssue (i : Issue) : Bool :=
  i.issue == "Jurisdiction not specific to ADGM or references UAE Federal law"

/-- Recognizer for the universal signature issue. -/
def isSignatureIssue (i : Issue) : Bool :=
  i.issue == "Missing signature block or execution clause"

/-- Deterministic stub environment: the retrieval provider always
returns the two passages "A" and "B", the generative capability echoes
its own input as the single candidate part, set enumeration is
first-seen order, and the retrieval store counts as available. -/
def envA : Env :=
  { retrieve := fun _ _ => ["A", "B"],
    genParts := fun q => some [q],
    setEnum := dedupFirstSeen,
    ragAvailable := true }

/-- The same stub with the other (equally valid) `list(set(...))`
enumeration order, modelling the same program under a different
string-hash seed. -/
def envB : Env := { envA with setEnum := fun l => (dedupFirstSeen l).reverse }

/-- Stub environment for a failing provider stack: retrieval returns
nothing, the generative call raises, the store is unavailable. -/
def envF : Env :=
  { retrieve := fun _ _ => [],
    genParts := fun _ => none,
    setEnum := dedupFirstSeen,
    ragAvailable := false }

/-- The pattern list of the taxonomy entry "Renewal Application Form"
(`app/parser.py` 105-110), spelled out for claim C1. -/
def renewal_app_pats : List Re :=
  [rwords ["Renewal", "Application"],
   rwords ["License", "Renewal"],
   rwords ["permit", "renewal"],
   rwords ["registration", "renewal"]]

/-- The pattern list of the taxonomy entry "Shareholder Resolution"
(`app/parser.py` 32-40), spelled out for claim C1's witness. -/
def shareholder_res_pats : List Re :=
  [rb (rwords ["Shareholder", "Resolution"]),
   rb (rwords ["Member", "Resolution"]),
   rcat [rstr "Resolution", rws, rstr "of", rws, ropt (.seq (rstr "the") rws),
         rstr "Shareholder", ropt (rchar 's')],
   rcat [rstr "Resolution", rws, rstr "of", rws, ropt (.seq (rstr "the") rws),
         rstr "Member", ropt (rchar 's')],
   rcat [rstr "shareholder", ropt (rchar 's'), rws, rstr "meeting"],
   rcat [rstr "member", ropt (rchar 's'), rws, rstr "meeting"],
   rwords ["general", "meeting"]]

/-- Stub environment whose retrieval provider returns a requirements
summary mentioning signature and date requirements. -/
def envR : Env :=
  { retrieve := fun _ _ => ["signature and date required"],
    genParts := fun _ => none,
    setEnum := dedupFirstSeen,
    ragAvailable := true }

/-- A concrete issue list (with a duplicated document type) used by the
checklist witnesses. -/
def sampleIssues : List Issue :=
  [{ issueSection := "General", issue := "a", severity := "High", suggestion := "s",
     citations := [], document_type := "Board Resolution" },
   { issueSection := "General", issue := "b", severity := "Low", suggestion := "s",
     citations := [], document_type := "Board Resolution" },
   { issueSection := "General", issue := "c", severity := "Low", suggestion := "s",
     citations := [], document_type := "Articles of Association" }]

/-! ### General helper lemmas -/

theorem contains_iff_mem (l : List String) (a : String) :
    l.contains a = true ↔ a ∈ l := by
  induction l with
  | nil => simp [List.contains]
  | cons b bs ih =>
    rw [List.contains_cons, Bool.or_eq_true, ih, beq_iff_eq, List.mem_cons]

theorem contains_append_one (acc : List String) (d t : String) :
    (acc ++ [d]).contains t = (acc.contains t || t == d) := by
  cases h : (acc.contains t || t == d) with
  | true =>
    refine (contains_iff_mem _ _).2 (List.mem_append.2 ?_)
    rw [Bool.or_eq_true] at h
    rcases h with h' | h'
    · exact Or.inl ((contains_iff_mem _ _).1 h')
    · exact Or.inr (List.mem_singleton.2 (beq_iff_eq.1 h'))
  | false =>
    cases hc : (acc ++ [d]).contains t with
    | false => rfl
    | true =>
      exfalso
      rcases List.mem_append.1 ((contains_iff_mem _ _).1 hc) with hm | hm
      · rw [(contains_iff_mem acc t).2 hm] at h
        simp at h
      · rw [List.mem_singleton] at hm
        subst hm
        simp at h

theorem filterMap_if_eq {α β : Type} (p : α → Bool) (f : α → β) :
    ∀ l : List α,
      (l.filterMap fun a => if p a then some (f a) else none) = (l.filter p).map f := by
  intro l
  induction l with
  | nil => rfl
  | cons a l ih =>
    cases h : p a <;> simp [List.filterMap_cons, List.filter_cons, h, ih]

theorem mem_dedupFirstSeen (l : List String) (x : String) :
    x ∈ dedupFirstSeen l ↔ x ∈ l := by
  induction l with
  | nil => simp [dedupFirstSeen]
  | cons a l ih =>
    rw [dedupFirstSeen]
    by_cases hxa : x = a
    · subst hxa; simp
    · simp only [List.mem_cons, hxa, false_or]
      rw [List.mem_filter, bne_iff_ne]
      simp [ih, hxa]

theorem nodup_dedupFirstSeen (l : List String) : (dedupFirstSeen l).Nodup := by
  induction l with
  | nil => simp [dedupFirstSeen]
  | cons a l ih =>
    rw [dedupFirstSeen]
    refine List.nodup_cons.2 ⟨?_, List.Nodup.filter _ ih⟩
    intro hmem
    exact absurd rfl (bne_iff_ne.1 (List.mem_filter.1 hmem).2)

theorem filter_dedupFirstSeen_comm (p : String → Bool) (l : List String) :
    (dedupFirstSeen l).filter p = dedupFirstSeen (l.filter p) := by
  induction l with
  | nil => rfl
  | cons a l ih =>
    show (a :: (dedupFirstSeen l).filter fun y => y != a).filter p
        = dedupFirstSeen ((a :: l).filter p)
    rw [List.filter_cons, List.filter_cons]
    cases hpa : p a with
    | true =>
      simp only [hpa, if_true]
      rw [show dedupFirstSeen (a :: l.filter p)
            = a :: (dedupFirstSeen (l.filter p)).filter (fun y => y != a) from rfl,
          ← ih, List.filter_filter, List.filter_filter]
      refine congrArg (List.cons a) (List.filter_congr fun y _ => ?_)
      exact Bool.and_comm _ _
    | false =>
      simp only [hpa, Bool.false_eq_true, if_false]
      rw [← ih, List.filter_filter]
      refine List.filter_congr fun y _ => ?_
      cases hya : y == a with
      | true =>
        rw [beq_iff_eq] at hya
        subst hya
        simp [hpa]
      | false =>
        simp [bne, hya]

theorem dedupFirstSeen_cons_filter (x : String) (xs : List String) :
    dedupFirstSeen (x :: xs) = x :: dedupFirstSeen (xs.filter fun y => y != x) := by
  rw [dedupFirstSeen, filter_dedupFirstSeen_comm]

theorem isSetEnum_dedupFirstSeen (l : List String) :
    IsSetEnum l (dedupFirstSeen l) :=
  ⟨nodup_dedupFirstSeen l, fun x => mem_dedupFirstSeen l x⟩

theorem isSetEnum_dedupFirstSeen_reverse (l : List String) :
    IsSetEnum l (dedupFirstSeen l).reverse := by
  refine ⟨List.nodup_reverse.2 (nodup_dedupFirstSeen l), fun x => ?_⟩
  rw [List.mem_reverse, mem_dedupFirstSeen]

/-! ### Claims C8 and C9: the checklist reconciler -/

theorem foldl_prob_eq (required found : List String) :
    ∀ (issues : List Issue) (acc : List String),
      issues.foldl (fun acc i =>
        if required.contains i.document_type && found.contains i.document_type
            && !(acc.contains i.document_type)
        then acc ++ [i.document_type] else acc) acc
      = acc ++ dedupFirstSeen ((issues.map fun i => i.document_type).filter
          fun t => required.contains t && found.contains t && !(acc.contains t)) := by
  intro issues
  induction issues with
  | nil => intro acc; simp [dedupFirstSeen]
  | cons i rest ih =>
    intro acc
    simp only [List.foldl_cons, List.map_cons, List.filter_cons]
    by_cases hc : (required.contains i.document_type
        && found.contains i.document_type && !(acc.contains i.document_type)) = true
    · rw [if_pos hc, hc, if_pos rfl, ih (acc ++ [i.document_type]),
        dedupFirstSeen_cons_filter, List.append_assoc, List.singleton_append]
      congr 2
      rw [List.filter_filter]
      refine congrArg dedupFirstSeen (List.filter_congr fun t _ => ?_)
      rw [contains_append_one]
      cases hr : required.contains t <;> cases hf : found.contains t <;>
        cases ha : acc.contains t <;> cases hd : t == i.document_type <;>
          simp [hr, hf, ha, hd, bne]
    · rw [if_neg hc]
      rw [Bool.not_eq_true] at hc
      rw [hc, if_neg (by simp)]
      exact ih acc

theorem verify_checklist_some (found_types : List String) (process : String)
    (issues : List Issue) (required : List String)
    (h : lookupProcess ADGM_CHECKLIST process = some required) :
    verify_checklist found_types process issues
      = (required.filter fun t => !(found_types.contains t),
         dedupFirstSeen ((issues.map fun i => i.document_type).filter
           fun t => required.contains t && found_types.contains t)) := by
  unfold verify_checklist
  rw [h]
  refine Prod.ext rfl ?_
  show issues.foldl _ [] = _
  rw [foldl_prob_eq, List.nil_append]
  refine congrArg dedupFirstSeen (List.filter_congr fun t _ => ?_)
  simp [List.contains]

/-- Claim C8: for every process present in the checklist map with
required set R, the reconciler's outputs satisfy
`missing ∪ (R ∩ F) = R` (as sets) and `missing ∩ problematic = ∅`. -/
theorem c8_reconciler_algebra (found_types : List String) (process : String)
    (issues : List Issue) (required : List String)
    (h : lookupProcess ADGM_CHECKLIST process = some required) :
    (∀ x, (x ∈ (verify_checklist found_types process issues).1
            ∨ (x ∈ required ∧ x ∈ found_types)) ↔ x ∈ required)
    ∧ ∀ x, ¬(x ∈ (verify_checklist found_types process issues).1
             ∧ x ∈ (verify_checklist found_types process issues).2) := by
  rw [verify_checklist_some found_types process issues required h]
  constructor
  · intro x
    simp only [List.mem_filter]
    constructor
    · rintro (⟨hreq, _⟩ | ⟨hreq, _⟩) <;> exact hreq
    · intro hreq
      by_cases hf : x ∈ found_types
      · exact Or.inr ⟨hreq, hf⟩
      · refine Or.inl ⟨hreq, ?_⟩
        rw [Bool.not_eq_true']
        cases hcx : found_types.contains x with
        | false => rfl
        | true => exact absurd ((contains_iff_mem _ _).1 hcx) hf
  · rintro x ⟨hmiss, hprob⟩
    simp only [List.mem_filter, Bool.not_eq_true'] at hmiss
    rw [mem_dedupFirstSeen, List.mem_filter] at hprob
    have hft : found_types.contains x = true := by
      rcases hprob with ⟨_, hp⟩
      rw [Bool.and_eq_true] at hp
      exact hp.2
    rw [hmiss.2] at hft
    exact Bool.false_ne_true hft

/-- Claim C9: an unknown process yields two empty collections, and
otherwise `problematic` is exactly the document types of `issues` that
are required and found, deduplicated in first-seen `issues` order. -/
theorem c9_problematic_spec (found_types : List String) (process : String)
    (issues : List Issue) :
    (lookupProcess ADGM_CHECKLIST process = none →
      verify_checklist found_types process issues = ([], []))
    ∧ ∀ required, lookupProcess ADGM_CHECKLIST process = some required →
        (verify_checklist found_types process issues).2
          = dedupFirstSeen ((issues.map fun i => i.document_type).filter
              fun t => required.contains t && found_types.contains t) := by
  constructor
  · intro h
    unfold verify_checklist
    rw [h]
  · intro required h
    rw [verify_checklist_some found_types process issues required h]

/-- Claim C8, witness at the spec's own scenario
(process "Employment HR Contracts", nothing uploaded). -/
theorem c8_reconciler_algebra_witness :
    lookupProcess ADGM_CHECKLIST "Employment HR Contracts" = some ["Employment Contract"]
    ∧ ((∀ x, (x ∈ (verify_checklist [] "Employment HR Contracts" sampleIssues).1
            ∨ (x ∈ ["Employment Contract"] ∧ x ∈ ([] : List String)))
            ↔ x ∈ ["Employment Contract"])
       ∧ ∀ x, ¬(x ∈ (verify_checklist [] "Employment HR Contracts" sampleIssues).1
                ∧ x ∈ (verify_checklist [] "Employment HR Contracts" sampleIssues).2)) :=
  ⟨rfl, c8_reconciler_algebra [] "Employment HR Contracts" sampleIssues
    ["Employment Contract"] rfl⟩

/-- Claim C9, witness on a concrete issue list with a duplicate. -/
theorem c9_problematic_spec_witness :
    lookupProcess ADGM_CHECKLIST "Company Incorporation"
      = some (ADGM_CHECKLIST.head!.2)
    ∧ (verify_checklist ["Board Resolution", "Articles of Association"]
        "Company Incorporation" sampleIssues).2
      = dedupFirstSeen ((sampleIssues.map fun i => i.document_type).filter
          fun t => (ADGM_CHECKLIST.head!.2).contains t
            && (["Board Resolution", "Articles of Association"] : List String).contains t) :=
  ⟨rfl, (c9_problematic_spec ["Board Resolution", "Articles of Association"]
      "Company Incorporation" sampleIssues).2 (ADGM_CHECKLIST.head!.2) rfl⟩

/-! ### Claim C6: unreadable or empty documents short-circuit -/

/-- Claim C6: an unparseable document, or one with no non-blank
paragraph, makes `red_flags` return exactly the single synthetic
High-severity unreadable/empty issue and nothing else. -/
theorem c6_unreadable (env : Env) (doc : Except String (List String)) (dt : String)
    (h : docDeadOnArrival doc) :
    red_flags env doc dt = [syntheticIssue doc dt]
    ∧ (syntheticIssue doc dt).severity = "High" := by
  cases doc with
  | error e => exact ⟨rfl, rfl⟩
  | ok paras =>
    simp only [docDeadOnArrival] at h
    refine ⟨?_, rfl⟩
    show (if (paraTexts paras).isEmpty then [emptyIssue dt] else _) = _
    rw [h]
    rfl

/-- Claim C6, witness: a document whose paragraphs are all blank. -/
theorem c6_unreadable_witness :
    docDeadOnArrival (.ok ["", "  "])
    ∧ (red_flags envF (.ok ["", "  "]) "Unknown"
        = [syntheticIssue (.ok ["", "  "]) "Unknown"]
       ∧ (syntheticIssue (.ok ["", "  "]) "Unknown").severity = "High") :=
  ⟨rfl, c6_unreadable envF (.ok ["", "  "]) "Unknown" rfl⟩

/-! ### Claim C4: retrieval-sourced requirement gaps -/

theorem mem_check_requirements (env : Env) (dt ft x : String) :
    x ∈ check_document_against_rag_requirements env dt ft →
    x ∈ requirement_patterns.map Prod.fst := by
  unfold check_document_against_rag_requirements
  by_cases h : containsSub "No specific requirements"
      (get_document_requirements env dt) = true
  · rw [if_pos h]
    intro hx
    exact absurd hx (List.not_mem_nil x)
  · rw [if_neg h]
    intro hx
    rcases List.mem_filterMap.1 hx with ⟨rp, hrp, heq⟩
    by_cases hc : (containsSub rp.1 (lowerStr (get_document_requirements env dt))
        && !(searchB rp.2 ft)) = true
    · rw [if_pos hc] at heq
      injection heq with h'
      subst h'
      exact List.mem_map_of_mem Prod.fst hrp
    · rw [if_neg hc] at heq
      cases heq

/-- Claim C4: when the retrieval store is available and the retrieved
requirements summary is usable (non-empty retrieval whose top-5 join
does not contain the sentinel "No specific requirements"), the
requirement-gap family emits exactly the Medium-severity issues citing
"ADGM Legal Knowledge Base" for the requirement names — one per name,
the eight names being pairwise distinct — that occur case-insensitively
in the summary and whose detection regex does not match the full text;
otherwise it emits nothing. -/
theorem c4_requirement_gaps (env : Env) (dt ftext : String) :
    (ragReqFamily env dt ftext
      = if env.ragAvailable
            && !(containsSub "No specific requirements"
                  (get_document_requirements env dt))
        then (requirement_patterns.filter fun rp =>
            containsSub rp.1 (lowerStr (get_document_requirements env dt))
              && !(searchB rp.2 ftext)).map fun rp => ragIssue env dt rp.1
        else [])
    ∧ (∀ i ∈ ragReqFamily env dt ftext,
        i.severity = "Medium" ∧ i.citations = ["ADGM Legal Knowledge Base"])
    ∧ (requirement_patterns.map Prod.fst).Nodup := by
  refine ⟨?_, ?_, by decide⟩
  · unfold ragReqFamily check_document_against_rag_requirements
    cases ha : env.ragAvailable with
    | false => simp
    | true =>
      rw [Bool.true_and]
      by_cases hc : containsSub "No specific requirements"
          (get_document_requirements env dt) = true
      · rw [if_pos hc, hc]
        simp
      · rw [if_neg hc]
        rw [Bool.not_eq_true] at hc
        rw [hc]
        simp only [Bool.not_false, if_true, List.map_map]
        rw [filterMap_if_eq
          (fun rp => containsSub rp.1 (lowerStr (get_document_requirements env dt))
            && !(searchB rp.2 ftext)) Prod.fst, List.map_map]
        rfl
  · intro i hi
    unfold ragReqFamily at hi
    cases ha : env.ragAvailable with
    | false =>
      rw [ha] at hi
      simp at hi
    | true =>
      rw [ha] at hi
      simp only [if_true] at hi
      rcases List.mem_map.1 hi with ⟨n, _, rfl⟩
      exact ⟨rfl, rfl⟩

/-- Claim C4, witness: a summary mentioning signature and date
requirements produces Medium issues citing the knowledge base. -/
theorem c4_requirement_gaps_witness :
    (ragIssue envR "Compliance Declaration" "signature").severity = "Medium"
    ∧ (ragIssue envR "Compliance Declaration" "signature").citations
        = ["ADGM Legal Knowledge Base"] :=
  (c4_requirement_gaps envR "Compliance Declaration" "x").2.1
    (ragIssue envR "Compliance Declaration" "signature") (by decide)

/-! ### Claim C3: determinism of the rule engine -/

/-- Claim C3 as amended: `red_flags` is a deterministic function of
its inputs, the injected capabilities, and the interpreter's
`list(set(...))` enumeration order — two runs whose capabilities and
set-enumeration agree pointwise produce identical issue lists. -/
theorem c3_deterministic (e1 e2 : Env) (doc : Except String (List String))
    (dt : String)
    (hr : ∀ q k, e1.retrieve q k = e2.retrieve q k)
    (hg : ∀ q, e1.genParts q = e2.genParts q)
    (hs : ∀ l, e1.setEnum l = e2.setEnum l)
    (ha : e1.ragAvailable = e2.ragAvailable) :
    red_flags e1 doc dt = red_flags e2 doc dt := by
  obtain ⟨r1, g1, s1, a1⟩ := e1
  obtain ⟨r2, g2, s2, a2⟩ := e2
  have hr' : r1 = r2 := funext fun q => funext fun k => hr q k
  have hg' : g1 = g2 := funext fun q => hg q
  have hs' : s1 = s2 := funext fun l => hs l
  have ha' : a1 = a2 := ha
  subst hr' hg' hs' ha'
  rfl

/-- Claim C3, witness: equal stub environments give equal outputs. -/
theorem c3_deterministic_witness :
    red_flags envA (.ok ["x"]) "Compliance Declaration"
      = red_flags envA (.ok ["x"]) "Compliance Declaration" :=
  c3_deterministic envA envA (.ok ["x"]) "Compliance Declaration"
    (fun _ _ => rfl) (fun _ => rfl) (fun _ => rfl) rfl

/-- Claim C3, counterexample: the claim as stated — determinism in the
inputs and injected capabilities alone — fails.  `envA` and `envB`
agree on retrieval, generation and availability, and both `setEnum`
fields are valid `list(set(...))` enumerations (as Python's
hash-seed-dependent set iteration is), yet the emitted issue lists
differ byte-wise, because `get_rag_enhanced_suggestion` feeds the
enumeration order into the generated suggestion text. -/
theorem c3_counterexample :
    (∀ l, IsSetEnum l (envA.setEnum l))
    ∧ (∀ l, IsSetEnum l (envB.setEnum l))
    ∧ envA.retrieve = envB.retrieve
    ∧ envA.genParts = envB.genParts
    ∧ envA.ragAvailable = envB.ragAvailable
    ∧ red_flags envA (.ok ["x"]) "Compliance Declaration"
        ≠ red_flags envB (.ok ["x"]) "Compliance Declaration" :=
  ⟨fun l => isSetEnum_dedupFirstSeen l,
   fun l => isSetEnum_dedupFirstSeen_reverse l,
   rfl, rfl, rfl, by decide⟩

/-! ### Claim C7: the suggestion composer never returns an empty string -/

theorem dropWhile_idem (p : Char → Bool) (l : List Char) :
    (l.dropWhile p).dropWhile p = l.dropWhile p := by
  induction l with
  | nil => rfl
  | cons a l ih =>
    cases hpa : p a with
    | true => rw [List.dropWhile_cons_of_pos hpa]; exact ih
    | false =>
      rw [List.dropWhile_cons_of_neg (by simp [hpa]),
          List.dropWhile_cons_of_neg (by simp [hpa])]

theorem dropWhile_eq_cons_head_false (p : Char → Bool) (l : List Char)
    (c : Char) (t : List Char) (h : l.dropWhile p = c :: t) : p c = false := by
  induction l with
  | nil => cases h
  | cons a l ih =>
    cases hpa : p a with
    | true => rw [List.dropWhile_cons_of_pos hpa] at h; exact ih h
    | false =>
      rw [List.dropWhile_cons_of_neg (by simp [hpa])] at h
      injection h with h1 _
      rw [← h1]
      exact hpa

theorem trimChars_reverse_dropWhile (l : List Char) :
    (trimChars l).reverse.dropWhile isSpaceC = (trimChars l).reverse := by
  unfold trimChars
  rw [List.reverse_reverse]
  exact dropWhile_idem _ _

theorem trimChars_dropWhile (l : List Char) :
    (trimChars l).dropWhile isSpaceC = trimChars l := by
  cases htr : trimChars l with
  | nil => rfl
  | cons c t =>
    refine List.dropWhile_cons_of_neg ?_
    have hsuf : ((l.dropWhile isSpaceC).reverse.dropWhile isSpaceC)
        <:+ (l.dropWhile isSpaceC).reverse := List.dropWhile_suffix _
    have hpre : trimChars l <+: l.dropWhile isSpaceC := by
      have := List.reverse_prefix.2 hsuf
      rwa [List.reverse_reverse] at this
    rw [htr] at hpre
    rcases hpre with ⟨r, hr⟩
    have hc : isSpaceC c = false :=
      dropWhile_eq_cons_head_false isSpaceC l c (t ++ r) (by rw [← hr]; rfl)
    simp [hc]

theorem trimChars_idem (l : List Char) :
    trimChars (trimChars l) = trimChars l := by
  conv_lhs => rw [trimChars]
  rw [trimChars_dropWhile, trimChars_reverse_dropWhile, List.reverse_reverse]

theorem stripStr_idem (s : String) : stripStr (stripStr s) = stripStr s :=
  congrArg String.mk (trimChars_idem s.data)

theorem ask_fixed (env : Env) (p c : String) :
    stripStr (ask env p c) = ask env p c := by
  unfold ask
  cases env.genParts (p ++ "\n\nContext:\n"
      ++ (if c == "" then "No additional context." else c)) with
  | none => decide
  | some parts =>
    dsimp only
    by_cases h : (parts.filter fun t => t != "").isEmpty = true
    · rw [if_pos h]
      decide
    · rw [if_neg h]
      exact stripStr_idem _

theorem composer_fixed (env : Env) (p dt c : String) :
    stripStr (composerResponse env p dt c) = composerResponse env p dt c := by
  unfold composerResponse
  exact ask_fixed env _ _

theorem review_fallback_ne (dt p : String) :
    "Review " ++ dt ++ " against ADGM requirements: " ++ stripStr p ≠ "" := by
  intro h
  have hl := congrArg String.length h
  rw [String.length_append, String.length_append, String.length_append] at hl
  have h7 : "Review ".length = 7 := rfl
  have h0 : "".length = 0 := rfl
  rw [h7, h0] at hl
  omega

theorem composer_fallback_spec (env : Env) (prompt doc_type context : String) :
    get_rag_powered_suggestion env prompt doc_type context ≠ ""
    ∧ ((composerResponse env prompt doc_type context == ""
        || leadsWith "[No suggestion" (composerResponse env prompt doc_type context)
        || leadsWith "[No response" (composerResponse env prompt doc_type context))
          = true →
      get_rag_powered_suggestion env prompt doc_type context
        = "Review " ++ doc_type ++ " against ADGM requirements: "
            ++ stripStr prompt) := by
  constructor
  · show (if (composerResponse env prompt doc_type context == ""
        || leadsWith "[No suggestion" (composerResponse env prompt doc_type context)
        || leadsWith "[No response" (composerResponse env prompt doc_type context))
      then "Review " ++ doc_type ++ " against ADGM requirements: " ++ stripStr prompt
      else stripStr (composerResponse env prompt doc_type context)) ≠ ""
    by_cases hcond : (composerResponse env prompt doc_type context == ""
        || leadsWith "[No suggestion" (composerResponse env prompt doc_type context)
        || leadsWith "[No response" (composerResponse env prompt doc_type context))
          = true
    · rw [if_pos hcond]
      exact review_fallback_ne doc_type prompt
    · rw [if_neg hcond]
      rw [composer_fixed]
      intro heq
      apply hcond
      rw [heq]
      simp
  · intro hcond
    show (if (composerResponse env prompt doc_type context == ""
        || leadsWith "[No suggestion" (composerResponse env prompt doc_type context)
        || leadsWith "[No response" (composerResponse env prompt doc_type context))
      then "Review " ++ doc_type ++ " against ADGM requirements: " ++ stripStr prompt
      else stripStr (composerResponse env prompt doc_type context)) = _
    rw [if_pos hcond]

/-- Claim C7, counterexample: when the generative call fails, the
substituted fallback is "Review {doc_type} against ADGM requirements:
{prompt.strip()}", not the claim's "Review {document_type} against
requirements: {prompt}". -/
theorem c7_counterexample :
    composerResponse envF "add a signature block" "Employment Contract" ""
      = "[No suggestion available]"
    ∧ get_rag_powered_suggestion envF "add a signature block" "Employment Contract" ""
      = "Review Employment Contract against ADGM requirements: add a signature block"
    ∧ get_rag_powered_suggestion envF "add a signature block" "Employment Contract" ""
      ≠ "Review Employment Contract against requirements: add a signature block" :=
  ⟨by decide, by decide, by decide⟩

/-! ### Claims C5 and C10: locating single issues in the full output -/

theorem mem_ragReqFamily (env : Env) (dt ft : String) (i : Issue)
    (h : i ∈ ragReqFamily env dt ft) :
    ∃ n ∈ requirement_patterns.map Prod.fst, i = ragIssue env dt n := by
  unfold ragReqFamily at h
  cases ha : env.ragAvailable with
  | false => rw [ha] at h; simp at h
  | true =>
    rw [ha, if_pos rfl] at h
    rcases List.mem_map.1 h with ⟨n, hn, rfl⟩
    exact ⟨n, mem_check_requirements env dt ft n hn, rfl⟩

theorem mem_uboFamily (env : Env) (dt ft : String) (i : Issue)
    (h : i ∈ uboFamily env dt ft) :
    ∃ n ∈ ubo_required_fields.map Prod.fst, i = uboIssue env dt n := by
  unfold uboFamily at h
  by_cases hdt : (dt == "UBO Declaration") = true
  · rw [if_pos hdt] at h
    rcases List.mem_filterMap.1 h with ⟨fp, hfp, heq⟩
    by_cases hs : searchB fp.2 ft = true
    · rw [if_pos hs] at heq; cases heq
    · rw [if_neg hs] at heq
      injection heq with h'
      exact ⟨fp.1, List.mem_map_of_mem Prod.fst hfp, h'.symm⟩
  · rw [if_neg hdt] at h
    simp at h

theorem mem_empFamily (env : Env) (dt ft : String) (i : Issue)
    (h : i ∈ empFamily env dt ft) :
    ∃ n ∈ employment_requirements.map Prod.fst, i = empIssue env dt n := by
  unfold empFamily at h
  by_cases hdt : (dt == "Employment Contract") = true
  · rw [if_pos hdt] at h
    rcases List.mem_filterMap.1 h with ⟨fp, hfp, heq⟩
    by_cases hs : searchB fp.2 ft = true
    · rw [if_pos hs] at heq; cases heq
    · rw [if_neg hs] at heq
      injection heq with h'
      exact ⟨fp.1, List.mem_map_of_mem Prod.fst hfp, h'.symm⟩
  · rw [if_neg hdt] at h
    simp at h

theorem mem_signatureFamily (env : Env) (dt : String) (texts : List String)
    (i : Issue) (h : i ∈ signatureFamily env dt texts) : i = sigIssue env dt := by
  unfold signatureFamily at h
  by_cases hs : (texts.any fun t => signature_patterns.any fun r => searchB r t) = true
  · rw [if_pos hs] at h; simp at h
  · rw [if_neg hs] at h
    exact List.mem_singleton.1 h

theorem mem_jurisdictionFamily (env : Env) (dt : String) (texts : List String)
    (ft : String) (i : Issue) (h : i ∈ jurisdictionFamily env dt texts ft) :
    i = jurisdictionIssue env dt texts := by
  unfold jurisdictionFamily at h
  by_cases hc : (corporate_docs.contains dt) = true
  · rw [if_pos hc] at h
    by_cases hj : jcond ft = true
    · rw [if_pos hj] at h; exact List.mem_singleton.1 h
    · rw [if_neg hj] at h; simp at h
  · rw [if_neg hc] at h; simp at h

theorem countP_eq_zero_of_all (pr : Issue → Bool) (l : List Issue)
    (h : ∀ i ∈ l, pr i = false) : l.countP pr = 0 :=
  List.countP_eq_zero.2 fun i hi => by rw [h i hi]; exact Bool.false_ne_true

theorem countP_jur_ragReqFamily (env : Env) (dt ft : String) :
    (ragReqFamily env dt ft).countP isJurisdictionIssue = 0 := by
  refine countP_eq_zero_of_all _ _ fun i hi => ?_
  rcases mem_ragReqFamily env dt ft i hi with ⟨n, hn, rfl⟩
  simp only [requirement_patterns, List.map_cons, List.map_nil, List.mem_cons,
    List.not_mem_nil, or_false] at hn
  rcases hn with rfl | rfl | rfl | rfl | rfl | rfl | rfl | rfl <;> rfl

theorem countP_jur_uboFamily (env : Env) (dt ft : String) :
    (uboFamily env dt ft).countP isJurisdictionIssue = 0 := by
  refine countP_eq_zero_of_all _ _ fun i hi => ?_
  rcases mem_uboFamily env dt ft i hi with ⟨n, hn, rfl⟩
  simp only [ubo_required_fields, List.map_cons, List.map_nil, List.mem_cons,
    List.not_mem_nil, or_false] at hn
  rcases hn with rfl | rfl | rfl | rfl | rfl <;> rfl

theorem countP_jur_empFamily (env : Env) (dt ft : String) :
    (empFamily env dt ft).countP isJurisdictionIssue = 0 := by
  refine countP_eq_zero_of_all _ _ fun i hi => ?_
  rcases mem_empFamily env dt ft i hi with ⟨n, hn, rfl⟩
  simp only [employment_requirements, List.map_cons, List.map_nil, List.mem_cons,
    List.not_mem_nil, or_false] at hn
  rcases hn with rfl | rfl | rfl | rfl | rfl | rfl <;> rfl

theorem countP_jur_signatureFamily (env : Env) (dt : String) (texts : List String) :
    (signatureFamily env dt texts).countP isJurisdictionIssue = 0 := by
  refine countP_eq_zero_of_all _ _ fun i hi => ?_
  rw [mem_signatureFamily env dt texts i hi]
  rfl

theorem red_flags_families (env : Env) (paras : List String) (dt : String)
    (h : paraTexts paras ≠ []) :
    red_flags env (.ok paras) dt
      = ragReqFamily env dt (joinNL (paraTexts paras))
        ++ jurisdictionFamily env dt (paraTexts paras) (joinNL (paraTexts paras))
        ++ uboFamily env dt (joinNL (paraTexts paras))
        ++ empFamily env dt (joinNL (paraTexts paras))
        ++ signatureFamily env dt (paraTexts paras) := by
  have he : (paraTexts paras).isEmpty = false := by
    cases he' : (paraTexts paras).isEmpty with
    | false => rfl
    | true => exact absurd (List.isEmpty_iff.1 he') h
  show (if (paraTexts paras).isEmpty then _ else _) = _
  rw [he]
  simp only [Bool.false_eq_true, if_false]

/-- Claim C5: for a corporate document type, the full `red_flags`
output contains exactly one jurisdiction issue precisely when the text
lacks an `\bADGM\b` marker or matches a UAE-federal marker; that
issue is High-severity, carries the fixed statutory citation, and its
section names the first paragraph matching the
`jurisdiction|law|court|governed` keywords (paragraph index 0, labelled
"Paragraph 1", when none matches). -/
theorem c5_jurisdiction (env : Env) (paras : List String) (dt : String)
    (h1 : corporate_docs.contains dt = true)
    (h2 : paraTexts paras ≠ []) :
    ((red_flags env (.ok paras) dt).countP isJurisdictionIssue
      = if jcond (joinNL (paraTexts paras)) then 1 else 0)
    ∧ (jcond (joinNL (paraTexts paras)) = true →
        jurisdictionIssue env dt (paraTexts paras) ∈ red_flags env (.ok paras) dt)
    ∧ (jurisdictionIssue env dt (paraTexts paras)).severity = "High"
    ∧ (jurisdictionIssue env dt (paraTexts paras)).citations
        = ["Companies Regulations 2020 s.6â€“12"]
    ∧ (jurisdictionIssue env dt (paraTexts paras)).issueSection
        = "Paragraph " ++ toString (((paraTexts paras).findIdx?
            fun p => searchB reJurisLoc p).getD 0 + 1) := by
  rw [red_flags_families env paras dt h2]
  refine ⟨?_, ?_, rfl, rfl, rfl⟩
  · rw [List.countP_append, List.countP_append, List.countP_append,
      List.countP_append, countP_jur_ragReqFamily, countP_jur_uboFamily,
      countP_jur_empFamily, countP_jur_signatureFamily]
    unfold jurisdictionFamily
    rw [if_pos h1]
    cases hj : jcond (joinNL (paraTexts paras)) with
    | true =>
      rw [if_pos rfl]
      simp [List.countP_cons, isJurisdictionIssue, jurisdictionIssue]
    | false =>
      simp
  · intro hj
    refine List.mem_append.2 (Or.inl (List.mem_append.2 (Or.inl
      (List.mem_append.2 (Or.inl (List.mem_append.2 (Or.inr ?_)))))))
    unfold jurisdictionFamily
    rw [if_pos h1, if_pos hj]
    exact List.mem_singleton.2 rfl

/-- Claim C5, witness: the spec's Board Resolution scenario
("Board Resolution", "IT IS RESOLVED", no jurisdiction marker). -/
theorem c5_jurisdiction_witness :
    corporate_docs.contains "Board Resolution" = true
    ∧ paraTexts ["Board Resolution", "IT IS RESOLVED"] ≠ []
    ∧ (((red_flags envF (.ok ["Board Resolution", "IT IS RESOLVED"])
          "Board Resolution").countP isJurisdictionIssue
        = if jcond (joinNL (paraTexts ["Board Resolution", "IT IS RESOLVED"]))
          then 1 else 0)
       ∧ (jcond (joinNL (paraTexts ["Board Resolution", "IT IS RESOLVED"])) = true →
          jurisdictionIssue envF "Board Resolution"
              (paraTexts ["Board Resolution", "IT IS RESOLVED"])
            ∈ red_flags envF (.ok ["Board Resolution", "IT IS RESOLVED"])
                "Board Resolution")
       ∧ (jurisdictionIssue envF "Board Resolution"
            (paraTexts ["Board Resolution", "IT IS RESOLVED"])).severity = "High"
       ∧ (jurisdictionIssue envF "Board Resolution"
            (paraTexts ["Board Resolution", "IT IS RESOLVED"])).citations
          = ["Companies Regulations 2020 s.6â€“12"]
       ∧ (jurisdictionIssue envF "Board Resolution"
            (paraTexts ["Board Resolution", "IT IS RESOLVED"])).issueSection
          = "Paragraph " ++ toString
              (((paraTexts ["Board Resolution", "IT IS RESOLVED"]).findIdx?
                fun p => searchB reJurisLoc p).getD 0 + 1)) :=
  ⟨by decide, by decide,
   c5_jurisdiction envF ["Board Resolution", "IT IS RESOLVED"] "Board Resolution"
     (by decide) (by decide)⟩

theorem countP_sig_ragReqFamily (env : Env) (dt ft : String) :
    (ragReqFamily env dt ft).countP isSignatureIssue = 0 := by
  refine countP_eq_zero_of_all _ _ fun i hi => ?_
  rcases mem_ragReqFamily env dt ft i hi with ⟨n, hn, rfl⟩
  simp only [requirement_patterns, List.map_cons, List.map_nil, List.mem_cons,
    List.not_mem_nil, or_false] at hn
  rcases hn with rfl | rfl | rfl | rfl | rfl | rfl | rfl | rfl <;> rfl

theorem countP_sig_uboFamily (env : Env) (dt ft : String) :
    (uboFamily env dt ft).countP isSignatureIssue = 0 := by
  refine countP_eq_zero_of_all _ _ fun i hi => ?_
  rcases mem_uboFamily env dt ft i hi with ⟨n, hn, rfl⟩
  simp only [ubo_required_fields, List.map_cons, List.map_nil, List.mem_cons,
    List.not_mem_nil, or_false] at hn
  rcases hn with rfl | rfl | rfl | rfl | rfl <;> rfl

theorem countP_sig_empFamily (env : Env) (dt ft : String) :
    (empFamily env dt ft).countP isSignatureIssue = 0 := by
  refine countP_eq_zero_of_all _ _ fun i hi => ?_
  rcases mem_empFamily env dt ft i hi with ⟨n, hn, rfl⟩
  simp only [employment_requirements, List.map_cons, List.map_nil, List.mem_cons,
    List.not_mem_nil, or_false] at hn
  rcases hn with rfl | rfl | rfl | rfl | rfl | rfl <;> rfl

theorem countP_sig_jurisdictionFamily (env : Env) (dt : String)
    (texts : List String) (ft : String) :
    (jurisdictionFamily env dt texts ft).countP isSignatureIssue = 0 := by
  refine countP_eq_zero_of_all _ _ fun i hi => ?_
  rw [mem_jurisdictionFamily env dt texts ft i hi]
  rfl

/-- Claim C10: `red_flags` scans only paragraph text.  If no paragraph
matches the signature patterns, the missing-signature issue is emitted
exactly once — even when the marker does match the combined text that
`extract_document_content` builds for the classifier (i.e. it sits in
a table cell), which is what hypothesis `_h3` expresses. -/
theorem c10_tables_excluded (env : Env) (dt : String) (paras : List String)
    (tables : List (List (List String)))
    (h1 : paraTexts paras ≠ [])
    (h2 : ((paraTexts paras).any
            fun t => signature_patterns.any fun r => searchB r t) = false)
    (_h3 : (signature_patterns.any
            fun r => searchB r (extract_document_content paras tables).1) = true) :
    (red_flags env (.ok paras) dt).countP isSignatureIssue = 1 := by
  rw [red_flags_families env paras dt h1]
  rw [List.countP_append, List.countP_append, List.countP_append,
    List.countP_append, countP_sig_ragReqFamily, countP_sig_uboFamily,
    countP_sig_empFamily, countP_sig_jurisdictionFamily]
  unfold signatureFamily
  rw [h2]
  simp only [Bool.false_eq_true, if_false]
  simp [List.countP_cons, isSignatureIssue, sigIssue]

/-- Claim C10, witness: "Signed by John" only in a table cell. -/
theorem c10_tables_excluded_witness :
    paraTexts ["Board minutes"] ≠ []
    ∧ ((paraTexts ["Board minutes"]).any
        fun t => signature_patterns.any fun r => searchB r t) = false
    ∧ (signature_patterns.any fun r => searchB r
        (extract_document_content ["Board minutes"] [[["Signed by John"]]]).1) = true
    ∧ (red_flags envF (.ok ["Board minutes"]) "Board Resolution").countP
        isSignatureIssue = 1 :=
  ⟨by decide, by decide, by decide,
   c10_tables_excluded envF "Board Resolution" ["Board minutes"]
     [[["Signed by John"]]] (by decide) (by decide) (by decide)⟩

/-- Claim C7 as amended: every issue emitted by `red_flags` carries a
non-empty suggestion; and whenever the generative response is empty or
placeholder-prefixed (which includes a failed call, caught inside
`GeminiClient.ask` and converted to "[No suggestion available]"), the
composer substitutes the deterministic fallback
"Review {doc_type} against ADGM requirements: {prompt.strip()}" —
note the "ADGM" and the stripping, absent from the claim's wording. -/
theorem c7_amended (env : Env) :
    (∀ (doc : Except String (List String)) (dt : String) (i : Issue),
        i ∈ red_flags env doc dt → i.suggestion ≠ "")
    ∧ ∀ (prompt doc_type context : String),
        (composerResponse env prompt doc_type context == ""
          || leadsWith "[No suggestion" (composerResponse env prompt doc_type context)
          || leadsWith "[No response" (composerResponse env prompt doc_type context))
            = true →
        get_rag_powered_suggestion env prompt doc_type context
          = "Review " ++ doc_type ++ " against ADGM requirements: "
              ++ stripStr prompt := by
  constructor
  · intro doc dt i hi
    cases doc with
    | error e =>
      rw [List.mem_singleton.1 hi]
      exact (show ("Please check document format and try again." : String) ≠ ""
        by decide)
    | ok paras =>
      cases he : (paraTexts paras).isEmpty with
      | true =>
        have hred : red_flags env (.ok paras) dt = [emptyIssue dt] := by
          show (if (paraTexts paras).isEmpty then _ else _) = _
          rw [he, if_pos rfl]
        rw [hred] at hi
        rw [List.mem_singleton.1 hi]
        exact (show ("Please check the document format and content." : String) ≠ ""
          by decide)
      | false =>
        have hne : paraTexts paras ≠ [] := by
          intro hnil
          rw [hnil] at he
          cases he
        rw [red_flags_families env paras dt hne] at hi
        rcases List.mem_append.1 hi with hi | hi
        · rcases List.mem_append.1 hi with hi | hi
          · rcases List.mem_append.1 hi with hi | hi
            · rcases List.mem_append.1 hi with hi | hi
              · rcases mem_ragReqFamily env dt _ i hi with ⟨n, _, rfl⟩
                exact (composer_fallback_spec env ("Document missing: " ++ n) dt
                  (joinNL (retrieve_for_compliance_check env dt
                    ("missing " ++ n) 5))).1
              · rw [mem_jurisdictionFamily env dt _ _ i hi]
                exact (composer_fallback_spec env _ dt _).1
            · rcases mem_uboFamily env dt _ i hi with ⟨n, _, rfl⟩
              exact (composer_fallback_spec env _ dt _).1
          · rcases mem_empFamily env dt _ i hi with ⟨n, _, rfl⟩
            exact (composer_fallback_spec env _ dt _).1
        · rw [mem_signatureFamily env dt _ i hi]
          exact (composer_fallback_spec env _ dt _).1
  · intro prompt doc_type context hcond
    exact (composer_fallback_spec env prompt doc_type context).2 hcond

/-- Claim C7, witness: a concrete emitted issue has a non-empty
suggestion, and a failed generative call yields the fallback. -/
theorem c7_amended_witness :
    sigIssue envF "Compliance Declaration"
      ∈ red_flags envF (.ok ["x"]) "Compliance Declaration"
    ∧ (sigIssue envF "Compliance Declaration").suggestion ≠ ""
    ∧ ((composerResponse envF "add a date field" "Employment Contract" "" == ""
        || leadsWith "[No suggestion"
            (composerResponse envF "add a date field" "Employment Contract" "")
        || leadsWith "[No response"
            (composerResponse envF "add a date field" "Employment Contract" ""))
          = true
       ∧ get_rag_powered_suggestion envF "add a date field" "Employment Contract" ""
          = "Review " ++ "Employment Contract" ++ " against ADGM requirements: "
              ++ stripStr "add a date field") :=
  ⟨by decide,
   (c7_amended envF).1 (.ok ["x"]) "Compliance Declaration"
     (sigIssue envF "Compliance Declaration") (by decide),
   by decide,
   (c7_amended envF).2 "add a date field" "Employment Contract" "" (by decide)⟩

/-! ### Claims C1 and C2: the pattern classifier -/

theorem isSpaceC_lowerChar (c : Char) (h : isSpaceC c = true) : lowerChar c = c := by
  unfold isSpaceC at h
  simp only [Bool.or_eq_true, beq_iff_eq] at h
  rcases h with ((((h | h) | h) | h) | h) | h <;> subst h <;> decide

theorem inky_classMatch_space (cc : CC) (ch : Char) (hink : inky cc = true)
    (hsp : isSpaceC ch = true) : classMatch cc ch = false := by
  cases cc with
  | lit d =>
    unfold classMatch
    cases hm : lowerChar ch == lowerChar d with
    | false => exact hm
    | true =>
      exfalso
      rw [beq_iff_eq, isSpaceC_lowerChar ch hsp] at hm
      have hds : isSpaceC (lowerChar d) = true := by rw [← hm]; exact hsp
      unfold inky at hink
      rw [Bool.not_eq_true'] at hink
      rw [hink] at hds
      exact Bool.false_ne_true hds
  | space => simp [inky] at hink
  | digit =>
    unfold classMatch
    unfold isSpaceC at hsp
    simp only [Bool.or_eq_true, beq_iff_eq] at hsp
    rcases hsp with ((((h | h) | h) | h) | h) | h <;> subst h <;> decide
  | dot => simp [inky] at hink
  | uspace => simp [inky] at hink

theorem allSpace_tail (c : Char) (l : List Char) (h : allSpace (c :: l) = true) :
    isSpaceC c = true ∧ allSpace l = true := by
  unfold allSpace at h ⊢
  rw [List.all_cons, Bool.and_eq_true] at h
  exact h

theorem starEnds_space (ends1 : Option Char → List Char → List MState)
    (hpres : ∀ prev s, allSpace s = true → ∀ st ∈ ends1 prev s,
      allSpace st.2 = true) :
    ∀ (fuel : Nat) (prev : Option Char) (s : List Char), allSpace s = true →
      ∀ st ∈ starEnds ends1 fuel prev s, allSpace st.2 = true := by
  intro fuel
  induction fuel with
  | zero =>
    intro prev s hs st hst
    rw [starEnds] at hst
    rw [List.mem_singleton.1 hst]
    exact hs
  | succ f ih =>
    intro prev s hs st hst
    rw [starEnds] at hst
    rcases List.mem_append.1 hst with hst | hst
    · rcases List.mem_flatMap.1 hst with ⟨st1, hst1, hst2⟩
      exact ih st1.1 st1.2 (hpres prev s hs st1 hst1) st hst2
    · rw [List.mem_singleton.1 hst]
      exact hs

theorem matchEnds_space : ∀ (r : Re) (prev : Option Char) (s : List Char),
    allSpace s = true → ∀ st ∈ matchEnds r prev s, allSpace st.2 = true := by
  intro r
  induction r with
  | eps =>
    intro prev s hs st hst
    rw [matchEnds] at hst
    rw [List.mem_singleton.1 hst]
    exact hs
  | cls cc =>
    intro prev s hs st hst
    cases s with
    | nil => simp [matchEnds] at hst
    | cons ch rest =>
      rw [matchEnds] at hst
      by_cases hm : classMatch cc ch = true
      · rw [if_pos hm] at hst
        rw [List.mem_singleton.1 hst]
        exact (allSpace_tail ch rest hs).2
      · rw [if_neg hm] at hst
        simp at hst
  | wb =>
    intro prev s hs st hst
    rw [matchEnds] at hst
    by_cases hb : (wordOpt prev != wordOpt s.head?) = true
    · rw [if_pos hb] at hst
      rw [List.mem_singleton.1 hst]
      exact hs
    · rw [if_neg hb] at hst
      simp at hst
  | seq a b iha ihb =>
    intro prev s hs st hst
    rw [matchEnds] at hst
    rcases List.mem_flatMap.1 hst with ⟨st1, hst1, hst2⟩
    exact ihb st1.1 st1.2 (iha prev s hs st1 hst1) st hst2
  | alt a b iha ihb =>
    intro prev s hs st hst
    rw [matchEnds] at hst
    rcases List.mem_append.1 hst with hst | hst
    · exact iha prev s hs st hst
    · exact ihb prev s hs st hst
  | star a iha =>
    intro prev s hs st hst
    rw [matchEnds] at hst
    exact starEnds_space (matchEnds a) iha (s.length + 1) prev s hs st hst

theorem matchEnds_ink_nil : ∀ (r : Re), needsInk r = true →
    ∀ (prev : Option Char) (s : List Char), allSpace s = true →
      matchEnds r prev s = [] := by
  intro r
  induction r with
  | eps => intro h; simp [needsInk] at h
  | wb => intro h; simp [needsInk] at h
  | star a _ => intro h; simp [needsInk] at h
  | cls cc =>
    intro h prev s hs
    unfold needsInk at h
    cases s with
    | nil => rfl
    | cons ch rest =>
      rw [matchEnds,
        if_neg (by rw [inky_classMatch_space cc ch h (allSpace_tail ch rest hs).1]
                   exact Bool.false_ne_true)]
  | seq a b iha ihb =>
    intro h prev s hs
    rw [needsInk] at h
    rw [matchEnds]
    cases hna : needsInk a with
    | true =>
      rw [iha hna prev s hs]
      rfl
    | false =>
      have hnb : needsInk b = true := by
        rw [hna] at h
        simpa using h
      rw [List.flatMap_eq_nil_iff]
      intro st hst
      exact ihb hnb st.1 st.2 (matchEnds_space a prev s hs st hst)
  | alt a b iha ihb =>
    intro h prev s hs
    rw [needsInk, Bool.and_eq_true] at h
    rw [matchEnds, iha h.1 prev s hs, ihb h.2 prev s hs]
    rfl

theorem countAux_ink_zero (r : Re) (hink : needsInk r = true) :
    ∀ (fuel : Nat) (prev : Option Char) (s : List Char), allSpace s = true →
      countAux r fuel prev s = 0 := by
  intro fuel
  induction fuel with
  | zero => intro prev s _; rfl
  | succ f ih =>
    intro prev s hs
    have hnil := matchEnds_ink_nil r hink prev s hs
    cases s with
    | nil => simp only [countAux, hnil, List.head?_nil]
    | cons c rest =>
      simp only [countAux, hnil, List.head?_nil]
      exact ih (some c) rest (allSpace_tail c rest hs).2

theorem countMatches_blank_zero (r : Re) (hink : needsInk r = true) (s : String)
    (hb : isBlankText s = true) : countMatches r s = 0 :=
  countAux_ink_zero r hink (s.data.length + 1) none s.data hb

theorem TYPE_RULES_ink : TYPE_RULES.all (fun tp => tp.2.all needsInk) = true := by
  decide

theorem scoreOf_blank_zero (pats : List Re) (hps : pats.all needsInk = true)
    (s : String) (hb : isBlankText s = true) : scoreOf pats s = 0 := by
  unfold scoreOf
  apply List.sum_eq_zero
  intro x hx
  rcases List.mem_map.1 hx with ⟨r, hr, rfl⟩
  exact countMatches_blank_zero r (List.all_eq_true.1 hps r hr) s hb

theorem maxOf_zero_of (l : List (String × Nat)) (h : ∀ p ∈ l, p.2 = 0) :
    maxOf l = 0 := by
  induction l with
  | nil => rfl
  | cons p l ih =>
    rw [maxOf, h p (List.mem_cons_self p l), ih fun q hq => h q (List.mem_cons_of_mem p hq)]
    simp

theorem le_maxOf (l : List (String × Nat)) (p : String × Nat) (hp : p ∈ l) :
    p.2 ≤ maxOf l := by
  induction l with
  | nil => cases hp
  | cons q l ih =>
    rw [maxOf]
    rcases List.mem_cons.1 hp with rfl | hp'
    · exact Nat.le_max_left _ _
    · exact Nat.le_trans (ih hp') (Nat.le_max_right _ _)

theorem maxOf_attained (l : List (String × Nat)) (h : 0 < maxOf l) :
    ∃ p ∈ l, p.2 = maxOf l := by
  induction l with
  | nil => exact absurd h (by simp [maxOf])
  | cons q l ih =>
    rw [maxOf]
    rcases Nat.le_total (maxOf l) q.2 with hle | hle
    · exact ⟨q, List.mem_cons_self q l, (Nat.max_eq_left hle).symm⟩
    · rw [Nat.max_eq_right hle]
      rw [maxOf, Nat.max_eq_right hle] at h
      rcases ih h with ⟨p, hp, he⟩
      exact ⟨p, List.mem_cons_of_mem q hp, he⟩

theorem foldl_pick_stay : ∀ (l : List (String × Nat)) (acc : String × Nat),
    (∀ y ∈ l, y.2 ≤ acc.2) →
    l.foldl (fun best y => if best.2 < y.2 then y else best) acc = acc := by
  intro l
  induction l with
  | nil => intro acc _; rfl
  | cons y ys ih =>
    intro acc h
    rw [List.foldl_cons,
      if_neg (Nat.not_lt.2 (h y (List.mem_cons_self y ys)))]
    exact ih acc fun z hz => h z (List.mem_cons_of_mem _ hz)

theorem foldl_pick_climb : ∀ (l : List (String × Nat)) (acc : String × Nat),
    acc.2 < maxOf l →
    some (l.foldl (fun best y => if best.2 < y.2 then y else best) acc)
      = l.find? fun p => p.2 == maxOf l := by
  intro l
  induction l with
  | nil => intro acc h; exact absurd h (by simp [maxOf])
  | cons y ys ih =>
    intro acc h
    rw [List.foldl_cons]
    rcases Nat.le_total (maxOf ys) y.2 with hy | hy
    · have hmax : maxOf (y :: ys) = y.2 := by rw [maxOf]; exact Nat.max_eq_left hy
      rw [hmax] at h ⊢
      rw [if_pos h]
      simp only [List.find?_cons, beq_self_eq_true]
      rw [foldl_pick_stay ys y fun z hz => Nat.le_trans (le_maxOf ys z hz) hy]
    · have hmax : maxOf (y :: ys) = maxOf ys := by rw [maxOf]; exact Nat.max_eq_right hy
      rw [hmax] at h ⊢
      by_cases hylt : y.2 = maxOf ys
      · have hb : (y.2 == maxOf ys) = true := by rw [hylt]; exact beq_self_eq_true _
        simp only [List.find?_cons, hb]
        have hstay : ∀ z ∈ ys, z.2 ≤ y.2 := by
          intro z hz
          rw [hylt]
          exact le_maxOf ys z hz
        by_cases hay : acc.2 < y.2
        · rw [if_pos hay, foldl_pick_stay ys y hstay]
        · exfalso
          rw [← hylt] at h
          exact hay h
      · have hb : (y.2 == maxOf ys) = false := beq_eq_false_iff_ne.2 hylt
        simp only [List.find?_cons, hb]
        exact ih (if acc.2 < y.2 then y else acc) (by
          by_cases hay : acc.2 < y.2
          · rw [if_pos hay]
            exact Nat.lt_of_le_of_ne hy hylt
          · rw [if_neg hay]
            exact h)

theorem pyMaxBy_find? (l : List (String × Nat)) (h : l ≠ []) :
    pyMaxBy l = l.find? fun p => p.2 == maxOf l := by
  cases l with
  | nil => exact absurd rfl h
  | cons x xs =>
    rw [pyMaxBy]
    rcases Nat.le_total (maxOf xs) x.2 with hx | hx
    · have hmax : maxOf (x :: xs) = x.2 := by rw [maxOf]; exact Nat.max_eq_left hx
      rw [hmax]
      simp only [List.find?_cons, beq_self_eq_true]
      rw [foldl_pick_stay xs x fun z hz => Nat.le_trans (le_maxOf xs z hz) hx]
    · have hmax : maxOf (x :: xs) = maxOf xs := by rw [maxOf]; exact Nat.max_eq_right hx
      rw [hmax]
      by_cases hxe : x.2 = maxOf xs
      · have hb : (x.2 == maxOf xs) = true := by rw [hxe]; exact beq_self_eq_true _
        simp only [List.find?_cons, hb]
        rw [foldl_pick_stay xs x fun z hz => by rw [hxe]; exact le_maxOf xs z hz]
      · have hb : (x.2 == maxOf xs) = false := beq_eq_false_iff_ne.2 hxe
        simp only [List.find?_cons, hb]
        exact foldl_pick_climb xs x (Nat.lt_of_le_of_ne hx hxe)

theorem maxOf_filter_pos : ∀ l : List (String × Nat),
    maxOf (l.filter fun p => 0 < p.2) = maxOf l := by
  intro l
  induction l with
  | nil => rfl
  | cons p l ih =>
    rw [List.filter_cons, maxOf]
    by_cases hp : 0 < p.2
    · rw [if_pos (by simpa using hp), maxOf, ih]
    · rw [if_neg (by simpa using hp)]
      have hz : p.2 = 0 := Nat.eq_zero_of_not_pos hp
      rw [hz, ih, Nat.zero_max]

theorem find?_filter_pos (M : Nat) (hM : 0 < M) : ∀ l : List (String × Nat),
    ((l.filter fun p => 0 < p.2).find? fun p => p.2 == M)
      = l.find? fun p => p.2 == M := by
  intro l
  induction l with
  | nil => rfl
  | cons p l ih =>
    rw [List.filter_cons]
    by_cases hp : 0 < p.2
    · rw [if_pos (by simpa using hp)]
      cases hb : (p.2 == M) with
      | true => simp only [List.find?_cons, hb]
      | false =>
        simp only [List.find?_cons, hb]
        exact ih
    · rw [if_neg (by simpa using hp)]
      have hz : p.2 = 0 := Nat.eq_zero_of_not_pos hp
      have hb : (p.2 == M) = false := by
        rw [hz]
        exact beq_eq_false_iff_ne.2 (by omega)
      simp only [List.find?_cons, hb]
      exact ih

theorem filter_pos_ne_nil (l : List (String × Nat)) (h : 0 < maxOf l) :
    (l.filter fun p => 0 < p.2) ≠ [] := by
  rcases maxOf_attained l h with ⟨p, hp, he⟩
  have : p ∈ l.filter fun p => 0 < p.2 :=
    List.mem_filter.2 ⟨hp, by rw [he]; simpa using h⟩
  exact List.ne_nil_of_mem this

theorem detect_eq_specClassify (fb : String → String) (text : String)
    (h : 0 < maxScoreOf text) : specClassify text = some (detect_doc_type fb text) := by
  have hblank : isBlankText text = false := by
    cases hb : isBlankText text with
    | false => rfl
    | true =>
      exfalso
      have hz : maxScoreOf text = 0 := by
        apply maxOf_zero_of
        intro p hp
        rcases List.mem_map.1 hp with ⟨tp, htp, rfl⟩
        exact scoreOf_blank_zero tp.2
          (List.all_eq_true.1 TYPE_RULES_ink tp htp) text hb
      rw [hz] at h
      exact Nat.lt_irrefl 0 h
  unfold detect_doc_type
  rw [hblank]
  simp only [Bool.false_eq_true, if_false]
  unfold type_scores
  rw [pyMaxBy_find? _ (filter_pos_ne_nil _ h), maxOf_filter_pos,
    find?_filter_pos (maxOf (allScores text)) h]
  rcases maxOf_attained (allScores text) h with ⟨p, hp, he⟩
  cases hf : (allScores text).find? fun q => q.2 == maxOf (allScores text) with
  | none =>
    exfalso
    have := List.find?_eq_none.1 hf p hp
    rw [he] at this
    simp at this
  | some q =>
    unfold specClassify maxScoreOf
    rw [hf]
    rfl

/-- Claim C2: on any text where at least one taxonomy pattern matches
(equivalently, the maximal summed score is positive), `detect_doc_type`
returns exactly the first DocumentType in taxonomy declaration order
whose total case-insensitive occurrence count attains the maximum
score, independently of the generative fallback. -/
theorem c2_classifier_max (fb : String → String) (text : String)
    (h : 0 < maxScoreOf text) :
    specClassify text = some (detect_doc_type fb text) :=
  detect_eq_specClassify fb text h

/-- Claim C2, witness: "Employment Agreement" scores positively and
classifies as "Employment Contract". -/
theorem c2_classifier_max_witness :
    0 < maxScoreOf "Employment Agreement"
    ∧ specClassify "Employment Agreement"
        = some (detect_doc_type (fun _ => "Unknown") "Employment Agreement") :=
  ⟨by decide, c2_classifier_max (fun _ => "Unknown") "Employment Agreement" (by decide)⟩

/-- Claim C1, counterexample: the text "License Renewal" consists of a
single occurrence of the pattern `License\s+Renewal` of the taxonomy
entry "Renewal Application Form", yet the classifier returns
"Licensing Regulatory Filing", whose pattern `license\s+renewal` also
matches and which tie-breaks first in declaration order.  So the claim
as stated — any text made only of occurrences of patterns of `t`
classifies as `t` — is false. -/
theorem c1_counterexample :
    ¬ ∀ (t : String) (pats : List Re) (fb : String → String) (text : String),
        (t, pats) ∈ TYPE_RULES → MadeOf pats text.data →
        detect_doc_type fb text = t := by
  intro h
  have hmem : ("Renewal Application Form", renewal_app_pats) ∈ TYPE_RULES := by
    decide
  have hmade : MadeOf renewal_app_pats ("License Renewal" : String).data :=
    MadeOf.single (rwords ["License", "Renewal"]) "License Renewal"
      (by decide) (by decide)
  have hdet := h "Renewal Application Form" renewal_app_pats (fun _ => "Unknown")
    "License Renewal" hmem hmade
  have hval : detect_doc_type (fun _ => "Unknown") "License Renewal"
      = "Licensing Regulatory Filing" := by decide
  rw [hval] at hdet
  exact absurd hdet (by decide)

/-- Claim C1 as amended: a text that matches at least one pattern of
taxonomy entry `t` and matches no pattern of any other entry is
classified as `t`. -/
theorem c1_amended (fb : String → String) (text : String) (t : String)
    (pats : List Re) (h1 : (t, pats) ∈ TYPE_RULES)
    (h2 : 0 < scoreOf pats text)
    (h3 : ∀ q ∈ TYPE_RULES, q.1 ≠ t → scoreOf q.2 text = 0) :
    detect_doc_type fb text = t := by
  have hmem : (t, scoreOf pats text) ∈ allScores text :=
    List.mem_map.2 ⟨(t, pats), h1, rfl⟩
  have hM : 0 < maxScoreOf text := Nat.lt_of_lt_of_le h2 (le_maxOf _ _ hmem)
  have hspec := detect_eq_specClassify fb text hM
  unfold specClassify at hspec
  cases hf : (allScores text).find? fun p => p.2 == maxScoreOf text with
  | none =>
    rw [hf] at hspec
    cases hspec
  | some q =>
    rw [hf] at hspec
    injection hspec with hq
    have hqmem : q ∈ allScores text := List.mem_of_find?_eq_some hf
    have hqpred := List.find?_some hf
    simp only [beq_iff_eq] at hqpred
    rcases List.mem_map.1 hqmem with ⟨tp, htp, hqe⟩
    by_cases hterm : tp.1 = t
    · rw [← hq, ← hqe]
      exact hterm
    · exfalso
      have hq2 : q.2 = 0 := by
        rw [← hqe]
        exact h3 tp htp hterm
      rw [hq2] at hqpred
      rw [← hqpred] at hM
      exact Nat.lt_irrefl 0 hM

/-- Claim C1, witness for the amended claim: "Shareholder Resolution"
matches only its own entry's patterns and classifies as itself. -/
theorem c1_amended_witness :
    ("Shareholder Resolution", shareholder_res_pats) ∈ TYPE_RULES
    ∧ 0 < scoreOf shareholder_res_pats "Shareholder Resolution"
    ∧ detect_doc_type (fun _ => "Unknown") "Shareholder Resolution"
        = "Shareholder Resolution" :=
  ⟨by decide, by decide,
   c1_amended (fun _ => "Unknown") "Shareholder Resolution" "Shareholder Resolution"
     shareholder_res_pats (by decide) (by decide) (by decide)⟩

end ADGM
